import Mathlib

/-!
Shallow embedding of the gosh-runner supervisor (job queue, process
session signalling, interactive line-based driver, single-job timeout)
together with theorems settling the specification claims.

Sources embedded:
  src/job.rs          -- Job, Computation, Db, Jobs (slotmap + bimap)
  src/process.rs      -- Process, SessionHandler, signal_processes_by_session_id
  src/session.rs      -- single-job supervisor default timeout
  src/interactive.rs  -- StdoutReader.read_until, InteractiveSession.interact

Filesystem and OS side effects are made explicit: each operation returns,
besides its result, the list of I/O events it performs (file creations,
reads, process spawns, signal deliveries).  Rust panics are modelled as a
distinct outcome constructor, anyhow errors as an error enumeration whose
constructors correspond to the bail sites of the source.
-/

/-! ## Paths

Model of Rust PathBuf: an absoluteness flag plus the list of components.
PathBuf.join appends components, except that joining an absolute path
replaces the base entirely.
-/

/-- Model of a filesystem path: absolute flag and components. -/
structure RPath where
  absolute : Bool
  comps : List String
deriving DecidableEq, Repr

/-- Split a character list at every separator character. -/
def splitSlash : List Char → List (List Char)
  | [] => [[]]
  | c :: rest =>
    if c = '/' then [] :: splitSlash rest
    else
      match splitSlash rest with
      | [] => [[c]]
      | g :: gs => (c :: g) :: gs

/-- Test whether the first character is the separator. -/
def headIsSlash (cs : List Char) : Bool :=
  match cs with
  | c :: _ => c = '/'
  | [] => false

/-- Parse a client-supplied file name string into a path, splitting on
the separator, mirroring how PathBuf treats a string. -/
def splitName (s : String) : RPath :=
  ⟨headIsSlash s.data, ((splitSlash s.data).filter (fun g => g ≠ [])).map String.mk⟩

/-- Model of PathBuf.join: an absolute right operand replaces the base. -/
def RPath.join (p q : RPath) : RPath :=
  if q.absolute then q else ⟨p.absolute, p.comps ++ q.comps⟩

/-- Join a relative file name given by a single component. -/
def RPath.child (p : RPath) (c : String) : RPath :=
  ⟨p.absolute, p.comps ++ [c]⟩

/-- One step of lexical path normalization: a dot-dot component removes
the preceding component. -/
def normStep (acc : List String) (c : String) : List String :=
  if c = ".." then acc.dropLast else acc ++ [c]

/-- Lexically normalized components of a path: what the path resolves to
on the filesystem, with dot-dot components resolved. -/
def RPath.normComps (p : RPath) : List String :=
  p.comps.foldl normStep []

/-- Test whether the string contains a path separator. -/
def hasSep (s : String) : Bool :=
  s.data.contains '/'

/-- Test whether pat occurs at some position of s (suffix scan). -/
def infixAt : List Char → List Char → Bool
  | pat, [] => pat.isEmpty
  | pat, c :: rest => pat.isPrefixOf (c :: rest) || infixAt pat rest

/-- Model of Rust str.contains for plain substring patterns. -/
def containsSub (s pat : String) : Bool :=
  infixAt pat.data s.data

/-! ## Interactive driver (src/interactive.rs)

The stdout of the child is modelled as the list of lines the reader
will yield, in order; a line is none when its bytes are not valid
UTF-8 (the lines iterator reports an encoding error there).
-/

/-- Result of StdoutReader.read_until. -/
inductive RRes where
  | ok (text : String)
  | patternNotFound
  | badEncoding
deriving DecidableEq, Repr

/-- Loop of read_until with the accumulated text so far: append each
line followed by a newline, returning as soon as a line contains the
pattern; reaching EOF fails and discards the accumulated text. -/
def readUntilAux (pat : String) : String → List (Option String) → RRes
  | _, [] => .patternNotFound
  | _, none :: _ => .badEncoding
  | acc, some l :: rest =>
    let acc2 := acc ++ (l ++ "\n")
    if containsSub l pat then .ok acc2 else readUntilAux pat acc2 rest

/-- Model of StdoutReader.read_until. -/
def readUntil (lines : List (Option String)) (pat : String) : RRes :=
  readUntilAux pat "" lines

/-- Result of InteractiveSession.interact: on success the list of
writes performed on the child stdin and the returned text; the panicked
outcome models the expect on an unspawned session. -/
inductive IOut where
  | ok (writes : List String) (text : String)
  | patternNotFound
  | badEncoding
  | emptyOutput
  | panicked
deriving DecidableEq, Repr

/-- Model of InteractiveSession.interact: panics when not spawned;
writes the input to stdin unless it is empty; then reads stdout until
the pattern, failing with emptyOutput when the accumulated text is
empty. -/
def interact (spawned : Bool) (input pat : String) (lines : List (Option String)) : IOut :=
  if spawned then
    let writes := if input = "" then [] else [input]
    match readUntil lines pat with
    | .ok txt => if txt = "" then .emptyOutput else .ok writes txt
    | .patternNotFound => .patternNotFound
    | .badEncoding => .badEncoding
  else .panicked

/-! ## Process sessions and signals (src/process.rs)

A world is the current /proc snapshot: the list of live processes.
Whether the OS would refuse a kill on a given process is recorded on
the process itself, so that signal delivery is a pure function of the
world.
-/

/-- Model of one process as seen through procfs: pid, start time in
clock ticks, session id, and whether the OS refuses signals to it. -/
structure Proc where
  pid : Nat
  startTime : Nat
  sessionId : Nat
  refuses : Bool
deriving DecidableEq, Repr

/-- Snapshot of all live processes. -/
abbrev World := List Proc

/-- Model of Process.from_pid via procfs: find the live process with
the given pid, capturing its start time. -/
def fromPid (w : World) (pid : Nat) : Option Proc :=
  w.find? (fun p => p.pid == pid)

/-- Model of Process.is_same: equal creation time and equal pid. -/
def isSame (p q : Proc) : Bool :=
  p.startTime == q.startTime && p.pid == q.pid

/-- Model of get_processes_in_session: all processes whose session id
equals the argument. -/
def processesInSession (w : World) (sid : Nat) : List Proc :=
  w.filter (fun p => p.sessionId == sid)

/-- Result of the signalling operations. -/
inductive SigRes where
  | ok
  | signalFailed
  | noLeader
  | leaderGone
deriving DecidableEq, Repr

/-- Loop body of signal_processes_by_session_id: send the signal to
each process in turn, returning the first delivery error immediately
(the question-mark operator in the source aborts the loop). The second
component lists the deliveries actually performed. -/
def signalLoop (sig : String) : List Proc → SigRes × List (Nat × String)
  | [] => (.ok, [])
  | p :: rest =>
    if p.refuses then (.signalFailed, [])
    else
      let (r, evs) := signalLoop sig rest
      (r, (p.pid, sig) :: evs)

/-- Model of signal_processes_by_session_id. -/
def signalProcessesBySid (w : World) (sid : Nat) (sig : String) : SigRes × List (Nat × String) :=
  signalLoop sig (processesInSession w sid)

/-- Model of SessionHandler: the optional process captured at spawn. -/
structure SessionHandler where
  process : Option Proc
deriving DecidableEq, Repr

/-- Model of SessionHandler.send_signal: bail when no leader was
captured; re-read the process with the recorded pid from the current
world; propagate the procfs error when it is gone; when the re-read
process is the same, signal the whole session, otherwise only warn and
deliver nothing. -/
def handlerSendSignal (w : World) (h : SessionHandler) (sig : String) : SigRes × List (Nat × String) :=
  match h.process with
  | none => (.noLeader, [])
  | some pOld =>
    match fromPid w pOld.pid with
    | none => (.leaderGone, [])
    | some pNow =>
      if isSame pNow pOld then signalProcessesBySid w pOld.pid sig
      else (.ok, [])

/-- Model of SessionHandler.pause. -/
def handlerPause (w : World) (h : SessionHandler) : SigRes × List (Nat × String) :=
  handlerSendSignal w h "SIGSTOP"

/-- Model of SessionHandler.resume. -/
def handlerResume (w : World) (h : SessionHandler) : SigRes × List (Nat × String) :=
  handlerSendSignal w h "SIGCONT"

/-- Model of SessionHandler.terminate: send SIGCONT, wait briefly, then
send SIGTERM, propagating the first error. -/
def handlerTerminate (w : World) (h : SessionHandler) : SigRes × List (Nat × String) :=
  let r1 := handlerSendSignal w h "SIGCONT"
  match r1.1 with
  | .ok =>
    let r2 := handlerSendSignal w h "SIGTERM"
    (r2.1, r1.2 ++ r2.2)
  | e => (e, r1.2)

/-! ## Single-job supervisor timeout (src/session.rs) -/

/-- Model of the timeout the supervisor start routine races against the
child exit and SIGINT: the configured value, or the written default
computed as 3600 * 2 in the source. -/
def effectiveTimeoutSecs (configured : Option Nat) : Nat :=
  let defaultTimeout := 3600 * 2
  configured.getD defaultTimeout

/-! ## Job queue (src/job.rs)

The queue is a slotmap of Computations plus a bidirectional map from
user-facing ids to slotmap keys.  Slotmap keys are versioned in the
source, so a removed key is never equal to a later key; the model
captures this with a monotone key counter.  Indexing the slotmap with
the key of a removed slot panics in the source and is the panicked
outcome here.  Filesystem writes always succeed in the model and are
recorded as events; reads and directory listings consult an explicit
filesystem oracle passed as an argument.
-/

/-- Model of the Job struct: stdin input, script text, and the
logical relative paths of the per-job files. -/
structure Job where
  input : String
  script : String
  inpFile : RPath
  outFile : RPath
  errFile : RPath
  runFile : RPath
  extraFiles : List RPath
deriving DecidableEq, Repr

/-- Model of Job.new: given script text, default file names. -/
def Job.new (script : String) : Job :=
  { input := ""
    script := script
    outFile := splitName "job.out"
    errFile := splitName "job.err"
    runFile := splitName "run"
    inpFile := splitName "job.inp"
    extraFiles := [] }

/-- Model of Computation: the job, the optional started session
(identified by a spawn serial), and the working directory created at
submission. -/
structure JobComp where
  job : Job
  session : Option Nat
  wrkDir : RPath
deriving DecidableEq, Repr

/-- Model of Computation.is_started. -/
def JobComp.isStarted (c : JobComp) : Bool :=
  c.session.isSome

/-- I/O events performed by queue operations. -/
inductive Ev where
  | fileCreated (p : RPath)
  | fileRead (p : RPath)
  | dirListed (p : RPath)
  | spawned (runFile : RPath) (serial : Nat)
  | waited (serial : Nat)
deriving DecidableEq, Repr

/-- Fresh temporary working directory beneath the supervisor cwd,
named by a creation counter. -/
def freshWrkDir (n : Nat) : RPath :=
  ⟨false, ["tmp" ++ toString n]⟩

/-- Model of Job.submit / Computation.new: allocate a fresh working
directory, write the run script into it, then write the input file. -/
def Job.submit (j : Job) (n : Nat) : JobComp × List Ev :=
  let wrk := freshWrkDir n
  let c : JobComp := ⟨j, none, wrk⟩
  (c, [Ev.fileCreated (wrk.join j.runFile), Ev.fileCreated (wrk.join j.inpFile)])

/-- Events of Computation.start: spawn the run script with the working
directory as cwd, then create the stdout and stderr capture files. -/
def JobComp.startEvents (c : JobComp) (serial : Nat) : List Ev :=
  [Ev.spawned (c.wrkDir.join c.job.runFile) serial,
   Ev.fileCreated (c.wrkDir.join c.job.outFile),
   Ev.fileCreated (c.wrkDir.join c.job.errFile)]

/-- Model of the slotmap storing Computations: a monotone key counter
and the live slots. -/
structure SlotMap where
  nextKey : Nat
  slots : List (Nat × JobComp)
deriving DecidableEq, Repr

/-- Empty slotmap. -/
def SlotMap.empty : SlotMap := ⟨0, []⟩

/-- Model of slotmap insert: the returned key is fresh forever. -/
def SlotMap.insert (m : SlotMap) (c : JobComp) : Nat × SlotMap :=
  (m.nextKey, ⟨m.nextKey + 1, m.slots ++ [(m.nextKey, c)]⟩)

/-- Look up a slot by key, none when the slot was removed. -/
def SlotMap.get? (m : SlotMap) (k : Nat) : Option JobComp :=
  (m.slots.find? (fun kv => kv.1 == k)).map (fun kv => kv.2)

/-- Model of slotmap remove. -/
def SlotMap.removeKey (m : SlotMap) (k : Nat) : SlotMap :=
  ⟨m.nextKey, m.slots.filter (fun kv => kv.1 ≠ k)⟩

/-- Replace the computation stored under an existing key. -/
def SlotMap.setSlot (m : SlotMap) (k : Nat) (c : JobComp) : SlotMap :=
  ⟨m.nextKey, m.slots.map (fun kv => if kv.1 = k then (k, c) else kv)⟩

/-- Model of slotmap clear: all slots removed, keys stay invalid. -/
def SlotMap.clearSlots (m : SlotMap) : SlotMap :=
  ⟨m.nextKey, []⟩

/-- Model of the Jobs registry: the slotmap and the id-to-key bimap. -/
structure Jobs where
  inner : SlotMap
  mapping : List (Nat × Nat)
deriving DecidableEq, Repr

/-- Model of Jobs.new. -/
def Jobs.empty : Jobs := ⟨SlotMap.empty, []⟩

/-- Model of Jobs.check_job: the key recorded for the id, none when
the id was never issued (which the source turns into the not-found
error). -/
def Jobs.checkJob (js : Jobs) (id : Nat) : Option Nat :=
  (js.mapping.find? (fun e => e.1 == id)).map (fun e => e.2)

/-- Model of Jobs.insert: slotmap insert, then insert_no_overwrite of
(mapping length + 1, key) into the bimap; the source panics when either
side is already present, modelled as none. -/
def Jobs.insertComp (js : Jobs) (c : JobComp) : Option (Nat × Jobs) :=
  let kv := js.inner.insert c
  let n := js.mapping.length + 1
  if js.mapping.any (fun e => e.1 == n || e.2 == kv.1) then none
  else some (n, ⟨kv.2, js.mapping ++ [(n, kv.1)]⟩)

/-- Queue error kinds, one per bail site of the source. -/
inductive DbErr where
  | notFound (id : Nat)
  | alreadyStarted (id : Nat)
  | fileMissing (p : RPath)
deriving DecidableEq, Repr

/-- Outcome of a queue operation: result, error, or a Rust panic. -/
inductive DbRes (α : Type) where
  | ok (a : α)
  | err (e : DbErr)
  | panicked
deriving DecidableEq, Repr

/-- State threaded through the queue operations: the registry, the
counter naming fresh working directories, and the spawn serial
counter. -/
structure DbState where
  jobs : Jobs
  nextDir : Nat
  nextSpawn : Nat
deriving DecidableEq, Repr

/-- Model of Db.new. -/
def DbState.empty : DbState := ⟨Jobs.empty, 0, 0⟩

/-- Model of Jobs.remove: look up the key, panic when indexing a
removed slot, otherwise drop the slot.  The source never removes the
mapping entry for the id. -/
def Jobs.removeJob (js : Jobs) (id : Nat) : DbRes Unit × Jobs :=
  match js.checkJob id with
  | none => (.err (.notFound id), js)
  | some k =>
    match js.inner.get? k with
    | none => (.panicked, js)
    | some _ => (.ok (), ⟨js.inner.removeKey k, js.mapping⟩)

/-- Model of Db.update_job: not-found when the id was never issued,
panic when the slot was removed, already-started when the stored
computation has a session, otherwise submit the new job into the
slot. -/
def updateJob (st : DbState) (id : Nat) (newJob : Job) : DbRes Unit × DbState × List Ev :=
  match st.jobs.checkJob id with
  | none => (.err (.notFound id), st, [])
  | some k =>
    match st.jobs.inner.get? k with
    | none => (.panicked, st, [])
    | some c =>
      if c.isStarted then (.err (.alreadyStarted id), st, [])
      else
        let ce := newJob.submit st.nextDir
        (.ok (), ⟨⟨st.jobs.inner.setSlot k ce.1, st.jobs.mapping⟩, st.nextDir + 1, st.nextSpawn⟩, ce.2)

/-- Model of Db.put_job_file: join the client-supplied name onto the
job working directory and create the file there; the source has no
branch rejecting the name. -/
def putJobFile (st : DbState) (id : Nat) (file : String) (_body : List Nat) : DbRes Unit × DbState × List Ev :=
  match st.jobs.checkJob id with
  | none => (.err (.notFound id), st, [])
  | some k =>
    match st.jobs.inner.get? k with
    | none => (.panicked, st, [])
    | some c =>
      let p := c.wrkDir.join (splitName file)
      (.ok (), st, [Ev.fileCreated p])

/-- Model of Db.get_job_file: join the client-supplied path onto the
job working directory and read the file there through the filesystem
oracle. -/
def getJobFile (fs : RPath → Option (List Nat)) (st : DbState) (id : Nat) (file : RPath) :
    DbRes (List Nat) × DbState × List Ev :=
  match st.jobs.checkJob id with
  | none => (.err (.notFound id), st, [])
  | some k =>
    match st.jobs.inner.get? k with
    | none => (.panicked, st, [])
    | some c =>
      let p := c.wrkDir.join file
      match fs p with
      | some bytes => (.ok bytes, st, [Ev.fileRead p])
      | none => (.err (.fileMissing p), st, [Ev.fileRead p])

/-- Model of Db.list_job_files: list the regular files of the job
working directory through the directory oracle. -/
def listJobFiles (dir : RPath → List RPath) (st : DbState) (id : Nat) :
    DbRes (List RPath) × DbState × List Ev :=
  match st.jobs.checkJob id with
  | none => (.err (.notFound id), st, [])
  | some k =>
    match st.jobs.inner.get? k with
    | none => (.panicked, st, [])
    | some c => (.ok (dir c.wrkDir), st, [Ev.dirListed c.wrkDir])

/-- Model of Db.clear_jobs. -/
def clearJobs (st : DbState) : DbRes Unit × DbState × List Ev :=
  (.ok (), ⟨⟨st.jobs.inner.clearSlots, st.jobs.mapping⟩, st.nextDir, st.nextSpawn⟩, [])

/-- Model of Db.delete_job. -/
def deleteJob (st : DbState) (id : Nat) : DbRes Unit × DbState × List Ev :=
  let rj := st.jobs.removeJob id
  (rj.1, ⟨rj.2, st.nextDir, st.nextSpawn⟩, [])

/-- Model of Db.insert_job: submit the job, then insert it into the
registry. -/
def insertJob (st : DbState) (j : Job) : DbRes Nat × DbState × List Ev :=
  let ce := j.submit st.nextDir
  match st.jobs.insertComp ce.1 with
  | none => (.panicked, ⟨st.jobs, st.nextDir + 1, st.nextSpawn⟩, ce.2)
  | some njs => (.ok njs.1, ⟨njs.2, st.nextDir + 1, st.nextSpawn⟩, ce.2)

/-- Model of Db.wait_job: look up the job, start it unconditionally
(spawning the run script and replacing any previous session), then
await the exit of the child. -/
def waitJob (st : DbState) (id : Nat) : DbRes Unit × DbState × List Ev :=
  match st.jobs.checkJob id with
  | none => (.err (.notFound id), st, [])
  | some k =>
    match st.jobs.inner.get? k with
    | none => (.panicked, st, [])
    | some c =>
      let serial := st.nextSpawn
      let c2 := { c with session := some serial }
      (.ok (), ⟨⟨st.jobs.inner.setSlot k c2, st.jobs.mapping⟩, st.nextDir, st.nextSpawn + 1⟩,
        c.startEvents serial ++ [Ev.waited serial])

/-! ## Operation sequences over one queue lifetime -/

/-- Queue mutations considered for the id-allocation claim. -/
inductive Op where
  | ins (j : Job)
  | del (id : Nat)
  | clr
deriving Repr

/-- Fold state for running a sequence of queue operations: the queue
state, the ids issued so far in order, and whether a panic has halted
the run. -/
structure RunSt where
  st : DbState
  issued : List Nat
  halted : Bool
deriving Repr

/-- Initial fold state: a fresh queue. -/
def RunSt.init : RunSt := ⟨DbState.empty, [], false⟩

/-- Run one queue operation, recording issued ids and halting the run
at the first panic. -/
def stepOp (r : RunSt) (op : Op) : RunSt :=
  if r.halted then r else
  match op with
  | .ins j =>
    match (insertJob r.st j).1 with
    | .ok n => ⟨(insertJob r.st j).2.1, r.issued ++ [n], false⟩
    | .err _ => ⟨(insertJob r.st j).2.1, r.issued, false⟩
    | .panicked => ⟨(insertJob r.st j).2.1, r.issued, true⟩
  | .del id =>
    match (deleteJob r.st id).1 with
    | .panicked => ⟨(deleteJob r.st id).2.1, r.issued, true⟩
    | _ => ⟨(deleteJob r.st id).2.1, r.issued, false⟩
  | .clr => ⟨(clearJobs r.st).2.1, r.issued, false⟩

/-- Ids issued across a whole operation sequence, in issue order. -/
def issuedIds (ops : List Op) : List Nat :=
  (ops.foldl stepOp RunSt.init).issued

/-! ## Concrete scenarios used by the claim theorems -/

/-- Sample job used in concrete scenarios. -/
def job0 : Job := Job.new "echo hi"

/-- Queue state after inserting one job; its id is 1 and its working
directory is tmp0. -/
def stA : DbState := (insertJob DbState.empty job0).2.1

/-- Queue state after deleting job 1 from stA. -/
def stB : DbState := (deleteJob stA 1).2.1

/-! ## Claim theorems -/

/-- Claim C4 (code_bug): the supervisor races the child exit and SIGINT
against a default timeout the surrounding comment and the spec call two
days, but the source computes 3600 * 2 = 7200 seconds (two hours), not
172800 seconds. -/
theorem C4_default_timeout_is_two_hours :
    effectiveTimeoutSecs none = 7200 ∧ effectiveTimeoutSecs none ≠ 172800 := by
  decide

/-- Claim C1 (code_bug): put_job_file and get_job_file join the whole
client-supplied name onto the job working directory with no rejection
branch: the name dot-dot-slash-pwn contains a path separator, resolves
outside the working directory tmp0, and both operations perform their
file I/O at the escaping path and succeed instead of failing without
I/O. -/
theorem C1_no_traversal_rejection :
    hasSep "../pwn" = true ∧
    (putJobFile stA 1 "../pwn" []).1 = DbRes.ok () ∧
    (putJobFile stA 1 "../pwn" []).2.2 = [Ev.fileCreated ⟨false, ["tmp0", "..", "pwn"]⟩] ∧
    RPath.normComps ⟨false, ["tmp0", "..", "pwn"]⟩ = ["pwn"] ∧
    List.isPrefixOf ["tmp0"] (RPath.normComps ⟨false, ["tmp0", "..", "pwn"]⟩) = false ∧
    (getJobFile (fun _ => some []) stA 1 (splitName "../pwn")).1 = DbRes.ok [] ∧
    (getJobFile (fun _ => some []) stA 1 (splitName "../pwn")).2.2
      = [Ev.fileRead ⟨false, ["tmp0", "..", "pwn"]⟩] := by
  decide

/-- Claim C2 (code_bug): deleting job 1 succeeds, but because
Jobs.remove never removes the id-to-key mapping entry, every subsequent
queue operation on id 1 finds the stale key and panics indexing the
slotmap, instead of failing with the not-found error. -/
theorem C2_operations_after_delete_panic :
    (insertJob DbState.empty job0).1 = DbRes.ok 1 ∧
    (deleteJob stA 1).1 = DbRes.ok () ∧
    (updateJob stB 1 job0).1 = DbRes.panicked ∧
    (deleteJob stB 1).1 = DbRes.panicked ∧
    (waitJob stB 1).1 = DbRes.panicked ∧
    (putJobFile stB 1 "a" []).1 = DbRes.panicked ∧
    (getJobFile (fun _ => none) stB 1 (splitName "a")).1 = DbRes.panicked ∧
    (listJobFiles (fun _ => []) stB 1).1 = DbRes.panicked := by
  decide

/-- Claim C5 (confirmed): when the signal operations of a handler
re-read the recorded pid and the start time of the process now behind
that pid differs from the one captured at spawn, the operation returns
without delivering any signal to any process. -/
theorem C5_stale_handle_delivers_nothing (w : World) (pOld pNow : Proc) (sig : String)
    (hfind : fromPid w pOld.pid = some pNow)
    (hTime : pNow.startTime ≠ pOld.startTime) :
    handlerSendSignal w ⟨some pOld⟩ sig = (SigRes.ok, []) ∧
    handlerPause w ⟨some pOld⟩ = (SigRes.ok, []) ∧
    handlerResume w ⟨some pOld⟩ = (SigRes.ok, []) ∧
    handlerTerminate w ⟨some pOld⟩ = (SigRes.ok, []) := by
  have hsame : isSame pNow pOld = false := by
    simp [isSame, hTime]
  have key : ∀ s : String, handlerSendSignal w ⟨some pOld⟩ s = (SigRes.ok, []) := by
    intro s
    simp [handlerSendSignal, hfind, hsame]
  refine ⟨key sig, key "SIGSTOP", key "SIGCONT", ?_⟩
  simp [handlerTerminate, key]

/-- Witness for C5 at a concrete world: pid 5 was captured with start
time 42 but is now held by a process with start time 99. -/
theorem C5_witness :
    handlerSendSignal [⟨5, 99, 5, false⟩] ⟨some ⟨5, 42, 5, false⟩⟩ "SIGTERM" = (SigRes.ok, []) ∧
    handlerTerminate [⟨5, 99, 5, false⟩] ⟨some ⟨5, 42, 5, false⟩⟩ = (SigRes.ok, []) :=
  ⟨(C5_stale_handle_delivers_nothing [⟨5, 99, 5, false⟩] ⟨5, 42, 5, false⟩ ⟨5, 99, 5, false⟩
      "SIGTERM" (by decide) (by decide)).1,
   (C5_stale_handle_delivers_nothing [⟨5, 99, 5, false⟩] ⟨5, 42, 5, false⟩ ⟨5, 99, 5, false⟩
      "SIGTERM" (by decide) (by decide)).2.2.2⟩

/-- World with three processes in session 5; the OS refuses signals to
pid 2. -/
def wSig : World := [⟨1, 10, 5, false⟩, ⟨2, 11, 5, true⟩, ⟨3, 12, 5, false⟩]

/-- Claim C6 counterexample: with processes 1, 2, 3 in the session and
delivery to process 2 failing, the batch returns the error immediately
and process 3 is never signalled, refuting that a failure on a single
member does not abort the batch. -/
theorem C6_counterexample_batch_aborts :
    signalProcessesBySid wSig 5 "SIGTERM" = (SigRes.signalFailed, [(1, "SIGTERM")]) ∧
    (3, "SIGTERM") ∉ (signalProcessesBySid wSig 5 "SIGTERM").2 := by
  decide

/-- Claim C6 (corrected): signal delivery to the processes of a session
stops at the first member whose delivery fails: members before it have
been signalled, members after it are not signalled, and the first error
is returned to the caller. -/
theorem C6_delivery_stops_at_first_failure (w : World) (sid : Nat) (sig : String)
    (pre : List Proc) (bad : Proc) (post : List Proc)
    (hsplit : processesInSession w sid = pre ++ bad :: post)
    (hpre : ∀ p ∈ pre, p.refuses = false)
    (hbad : bad.refuses = true) :
    signalProcessesBySid w sid sig = (SigRes.signalFailed, pre.map (fun p => (p.pid, sig))) := by
  unfold signalProcessesBySid
  rw [hsplit]
  clear hsplit
  induction pre with
  | nil => simp [signalLoop, hbad]
  | cons p ps ih =>
    have hp : p.refuses = false := hpre p (by simp)
    have ih2 := ih (fun q hq => hpre q (by simp [hq]))
    simp [signalLoop, hp, ih2]

/-- Witness for the corrected C6 at the concrete world wSig. -/
theorem C6_witness :
    signalProcessesBySid wSig 5 "SIGTERM" = (SigRes.signalFailed, [(1, "SIGTERM")]) :=
  C6_delivery_stops_at_first_failure wSig 5 "SIGTERM"
    [⟨1, 10, 5, false⟩] ⟨2, 11, 5, true⟩ [⟨3, 12, 5, false⟩]
    (by decide) (by decide) (by decide)

/-- Test for a spawn event. -/
def isSpawnEv : Ev → Bool
  | .spawned _ _ => true
  | _ => false

/-- Queue state after waitJob on job 1 of stA: the job has been
started once. -/
def stW1 : DbState := (waitJob stA 1).2.1

/-- Claim C3 counterexample: after one waitJob the stored computation
of job 1 is already started, yet a second waitJob on the same id emits
another spawn of the run script, refuting that the computation is
started only when not already started. -/
theorem C3_counterexample_double_spawn :
    (stW1.jobs.inner.get? 0).map JobComp.isStarted = some true ∧
    ((waitJob stW1 1).2.2.filter isSpawnEv).length = 1 := by
  decide

/-- Helper: find? over a list whose slot for key k has been replaced
returns the replacement. -/
theorem find?_setSlot_list (l : List (Nat × JobComp)) (k : Nat) (c2 : JobComp)
    (h : (l.find? (fun kv => kv.1 == k)).isSome) :
    (l.map (fun kv => if kv.1 = k then (k, c2) else kv)).find? (fun kv => kv.1 == k)
      = some (k, c2) := by
  induction l with
  | nil => simp at h
  | cons a t ih =>
    by_cases hak : a.1 = k
    · simp [hak]
    · have hstep : List.find? (fun kv => kv.1 == k) (a :: t) = List.find? (fun kv => kv.1 == k) t := by
        simp [hak]
      rw [hstep] at h
      simpa [hak] using ih h

/-- Helper: reading a key back after setSlot yields the replacement,
provided the key was live. -/
theorem SlotMap.get?_setSlot (m : SlotMap) (k : Nat) (c2 : JobComp)
    (h : (m.get? k).isSome) : (m.setSlot k c2).get? k = some c2 := by
  unfold SlotMap.get? SlotMap.setSlot at *
  have h2 : (m.slots.find? (fun kv => kv.1 == k)).isSome := by
    cases hf : m.slots.find? (fun kv => kv.1 == k) <;> simp [hf] at h ⊢
  rw [find?_setSlot_list m.slots k c2 h2]
  rfl

/-- Claim C3 (corrected): waitJob on an id whose mapping entry and slot
are both live starts the computation unconditionally, emitting exactly
one spawn of the run script regardless of whether the job was already
started, replaces the stored session with the fresh one, and then
awaits the exit of the child. -/
theorem C3_waitJob_always_starts (st : DbState) (id k : Nat) (c : JobComp)
    (hk : st.jobs.checkJob id = some k)
    (hc : st.jobs.inner.get? k = some c) :
    (waitJob st id).1 = DbRes.ok () ∧
    (waitJob st id).2.2 = c.startEvents st.nextSpawn ++ [Ev.waited st.nextSpawn] ∧
    ((waitJob st id).2.2.filter isSpawnEv).length = 1 ∧
    (waitJob st id).2.1.jobs.inner.get? k = some { c with session := some st.nextSpawn } := by
  have hlive : (st.jobs.inner.get? k).isSome := by rw [hc]; rfl
  have hset := SlotMap.get?_setSlot st.jobs.inner k { c with session := some st.nextSpawn } hlive
  simp [waitJob, hk, hc, JobComp.startEvents, isSpawnEv, hset]

/-- Witness for the corrected C3: on the concrete state stA, waitJob
on job 1 succeeds and spawns exactly once. -/
theorem C3_witness :
    (waitJob stA 1).1 = DbRes.ok () ∧
    ((waitJob stA 1).2.2.filter isSpawnEv).length = 1 := by
  have h := C3_waitJob_always_starts stA 1 0 (job0.submit 0).1 (by decide) (by decide)
  exact ⟨h.1, h.2.2.1⟩

/-- Queue state with jobs 1 and 2 inserted. -/
def stC : DbState := (insertJob (insertJob DbState.empty job0).2.1 job0).2.1

/-- Queue state after deleting job 2 from stC. -/
def stD : DbState := (deleteJob stC 2).2.1

/-- Claim C9 counterexample: after job 2 has been deleted its slot is
gone, so no job with id 2 exists, yet updateJob on id 2 panics on the
stale mapping entry instead of failing with the not-found error. -/
theorem C9_counterexample_deleted_id_panics :
    stD.jobs.inner.get? ((stD.jobs.checkJob 2).getD 99) = none ∧
    (updateJob stD 2 job0).1 = DbRes.panicked ∧
    (updateJob stD 2 job0).1 ≠ DbRes.err (DbErr.notFound 2) := by
  decide

/-- Claim C9 (corrected): updateJob fails with the not-found error
when the id was never issued, leaving the state unchanged; it panics
when the id refers to a deleted slot; it fails with already-started and
leaves the state unchanged when the stored computation has a session;
and it replaces the stored computation with the submitted new job only
when the job exists and has not been started. -/
theorem C9_updateJob_characterization (st : DbState) (id : Nat) (j : Job) :
    (st.jobs.checkJob id = none →
      (updateJob st id j).1 = DbRes.err (DbErr.notFound id) ∧ (updateJob st id j).2.1 = st) ∧
    (∀ k, st.jobs.checkJob id = some k → st.jobs.inner.get? k = none →
      (updateJob st id j).1 = DbRes.panicked ∧ (updateJob st id j).2.1 = st) ∧
    (∀ k c s, st.jobs.checkJob id = some k → st.jobs.inner.get? k = some c →
      c.session = some s →
      (updateJob st id j).1 = DbRes.err (DbErr.alreadyStarted id) ∧
      (updateJob st id j).2.1 = st) ∧
    (∀ k c, st.jobs.checkJob id = some k → st.jobs.inner.get? k = some c →
      c.session = none →
      (updateJob st id j).1 = DbRes.ok () ∧
      (updateJob st id j).2.1.jobs.inner.get? k = some (j.submit st.nextDir).1) := by
  refine ⟨?_, ?_, ?_, ?_⟩
  · intro h
    simp [updateJob, h]
  · intro k hk hnone
    simp [updateJob, hk, hnone]
  · intro k c s hk hc hs
    simp [updateJob, hk, hc, JobComp.isStarted, hs]
  · intro k c hk hc hns
    have hlive : (st.jobs.inner.get? k).isSome := by rw [hc]; rfl
    have hset := SlotMap.get?_setSlot st.jobs.inner k (j.submit st.nextDir).1 hlive
    simp [updateJob, hk, hc, JobComp.isStarted, hns, hset]

/-- Witness for the corrected C9: on the empty queue, updateJob of an
unknown id fails with the not-found error and changes nothing. -/
theorem C9_witness :
    (updateJob DbState.empty 7 job0).1 = DbRes.err (DbErr.notFound 7) ∧
    (updateJob DbState.empty 7 job0).2.1 = DbState.empty :=
  (C9_updateJob_characterization DbState.empty 7 job0).1 (by decide)

/-- Concatenation of lines, each terminated by a newline: the shape of
the text the interactive read accumulates. -/
def concatLines (ls : List String) : String :=
  ls.foldr (fun a b => a ++ "\n" ++ b) ""

/-- Helper: a successful read_until strictly extends the accumulated
text, since the matching line and its newline are always appended. -/
theorem readUntilAux_ok_length (pat : String) (ls : List (Option String)) :
    ∀ acc t, readUntilAux pat acc ls = RRes.ok t → acc.length < t.length := by
  induction ls with
  | nil =>
    intro acc t h
    simp [readUntilAux] at h
  | cons o rest ih =>
    intro acc t h
    cases o with
    | none => simp [readUntilAux] at h
    | some l =>
      simp only [readUntilAux] at h
      have h1 : ("\n" : String).length = 1 := rfl
      by_cases hc : containsSub l pat = true
      · rw [if_pos hc] at h
        injection h with h2
        rw [← h2, String.length_append, String.length_append]
        omega
      · rw [if_neg hc] at h
        have h3 := ih (acc ++ (l ++ "\n")) t h
        rw [String.length_append] at h3
        omega

/-- Helper: read_until on a stream whose first line containing the
pattern is l, preceded by non-matching valid lines, returns the
accumulated prefix through l, each line newline-terminated. -/
theorem readUntilAux_through_marker (pat : String) (post : List (Option String)) (l : String)
    (hl : containsSub l pat = true) :
    ∀ (pre : List String) (acc : String), (∀ s ∈ pre, containsSub s pat = false) →
    readUntilAux pat acc (pre.map some ++ some l :: post)
      = RRes.ok (acc ++ concatLines (pre ++ [l])) := by
  intro pre
  induction pre with
  | nil =>
    intro acc _
    simp [readUntilAux, hl, concatLines]
  | cons s ss ih =>
    intro acc hpre
    have hs : containsSub s pat = false := hpre s (by simp)
    have ihh := ih (acc ++ (s ++ "\n")) (fun q hq => hpre q (by simp [hq]))
    simp only [List.map_cons, List.cons_append, readUntilAux, List.append_eq]
    rw [if_neg (by simp [hs]), ihh]
    simp [concatLines, String.append_assoc]

/-- Claim C10 (confirmed): a successful read_until always returns
non-empty text, since it contains at least the matching line and its
newline; consequently the empty-output error branch of interact is
unreachable for every input, pattern and stdout stream. -/
theorem C10_empty_output_branch_unreachable :
    (∀ lines pat t, readUntil lines pat = RRes.ok t → t ≠ "") ∧
    (∀ spawned input pat lines, interact spawned input pat lines ≠ IOut.emptyOutput) := by
  have key : ∀ (lines : List (Option String)) (pat t : String),
      readUntil lines pat = RRes.ok t → t ≠ "" := by
    intro lines pat t h hemp
    have hlen := readUntilAux_ok_length pat lines "" t h
    rw [hemp] at hlen
    simp at hlen
  refine ⟨key, ?_⟩
  intro spawned input pat lines
  cases spawned with
  | false => simp [interact]
  | true =>
    cases hr : readUntil lines pat with
    | ok txt =>
      have hne := key lines pat txt hr
      simp [interact, hr, hne]
    | patternNotFound => simp [interact, hr]
    | badEncoding => simp [interact, hr]

/-- Witness for C10 on a concrete stream. -/
theorem C10_witness : interact true "" "x" [some "x"] ≠ IOut.emptyOutput :=
  C10_empty_output_branch_unreachable.2 true "" "x" [some "x"]

/-- Claim C7 (confirmed): on a spawned session whose stdout consists of
non-matching valid lines, then a line containing the pattern, interact
writes the input to stdin exactly once (and writes nothing when the
input is empty) and returns exactly the accumulated lines up to and
including the matching one, each terminated by a newline. -/
theorem C7_interact_returns_lines_through_marker (input pat : String) (pre : List String)
    (l : String) (post : List (Option String))
    (hpre : ∀ s ∈ pre, containsSub s pat = false)
    (hl : containsSub l pat = true) :
    interact true input pat (pre.map some ++ some l :: post)
      = IOut.ok (if input = "" then [] else [input]) (concatLines (pre ++ [l])) := by
  have hread0 : readUntilAux pat "" (pre.map some ++ some l :: post)
      = RRes.ok (concatLines (pre ++ [l])) := by
    simpa using readUntilAux_through_marker pat post l hl pre "" hpre
  have hread : readUntil (pre.map some ++ some l :: post) pat
      = RRes.ok (concatLines (pre ++ [l])) := by
    simpa [readUntil] using hread0
  have hne : concatLines (pre ++ [l]) ≠ "" := by
    intro hemp
    have hlen := readUntilAux_ok_length pat (pre.map some ++ some l :: post) ""
      (concatLines (pre ++ [l])) hread0
    rw [hemp] at hlen
    simp at hlen
  simp [interact, hread, hne]

/-- Witness for C7 mirroring the bash-loop scenario of the source
tests: one non-matching line, then the marker line. -/
theorem C7_witness :
    interact true "" "hello" [some "a", some "hello"] = IOut.ok [] "a\nhello\n" := by
  have h := C7_interact_returns_lines_through_marker "" "hello" ["a"] "hello" []
    (by decide) (by decide)
  exact h

/-- Helper: when neither side of the fresh (id, key) pair is already in
the bimap, insertJob issues id mapping-length + 1, appends the pair,
and bumps the key counter. -/
theorem insertJob_of_no_overwrite (st : DbState) (j : Job)
    (hany : st.jobs.mapping.any
      (fun e => e.1 == st.jobs.mapping.length + 1 || e.2 == st.jobs.inner.nextKey) = false) :
    (insertJob st j).1 = DbRes.ok (st.jobs.mapping.length + 1) ∧
    (insertJob st j).2.1.jobs.mapping
      = st.jobs.mapping ++ [(st.jobs.mapping.length + 1, st.jobs.inner.nextKey)] ∧
    (insertJob st j).2.1.jobs.inner.nextKey = st.jobs.inner.nextKey + 1 := by
  unfold insertJob Jobs.insertComp SlotMap.insert
  simp [hany]

/-- Helper: Jobs.remove never changes the id-to-key mapping or the key
counter, whatever its outcome. -/
theorem removeJob_mapping_nextKey (js : Jobs) (id : Nat) :
    (js.removeJob id).2.mapping = js.mapping ∧
    (js.removeJob id).2.inner.nextKey = js.inner.nextKey := by
  rcases hcj : js.checkJob id with _ | k
  · simp [Jobs.removeJob, hcj]
  · rcases hg : js.inner.get? k with _ | c
    · simp [Jobs.removeJob, hcj, hg]
    · simp [Jobs.removeJob, hcj, hg, SlotMap.removeKey]

/-- Invariant of a run: the issued ids are exactly 1, 2, ... in order,
and while no panic has halted the run, the left projection of the
mapping is that same range, its length matches the number of issued
ids, and every recorded slot key is below the next fresh key. -/
def goodRun (r : RunSt) : Prop :=
  r.issued = List.range' 1 r.issued.length ∧
  (r.halted = false →
    r.st.jobs.mapping.map Prod.fst = List.range' 1 r.st.jobs.mapping.length ∧
    r.issued.length = r.st.jobs.mapping.length ∧
    ∀ e ∈ r.st.jobs.mapping, e.2 < r.st.jobs.inner.nextKey)

/-- Helper: every queue operation preserves the run invariant. -/
theorem goodRun_step (r : RunSt) (op : Op) (h : goodRun r) : goodRun (stepOp r op) := by
  obtain ⟨hiss, hrest⟩ := h
  cases hhalt : r.halted with
  | true =>
    simp only [stepOp, hhalt, if_true]
    exact ⟨hiss, hrest⟩
  | false =>
    obtain ⟨hfst, hlen, hkeys⟩ := hrest hhalt
    cases op with
    | ins j =>
      have hany : r.st.jobs.mapping.any
          (fun e => e.1 == r.st.jobs.mapping.length + 1 || e.2 == r.st.jobs.inner.nextKey)
            = false := by
        rw [List.any_eq_false]
        intro e he
        have h1 : e.1 ∈ r.st.jobs.mapping.map Prod.fst := List.mem_map_of_mem _ he
        rw [hfst] at h1
        have h2 := List.mem_range'_1.mp h1
        have h3 := hkeys e he
        simp only [Bool.or_eq_true, beq_iff_eq, not_or]
        omega
      obtain ⟨hres, hmap2, hkey2⟩ := insertJob_of_no_overwrite r.st j hany
      simp only [stepOp, hhalt, hres, Bool.false_eq_true, if_false]
      refine ⟨?_, ?_⟩
      · have hl1 : (r.issued ++ [r.st.jobs.mapping.length + 1]).length
            = r.issued.length + 1 := by simp
        rw [hl1, List.range'_1_concat, ← hiss, hlen]
        simp [Nat.add_comm]
      · intro _
        refine ⟨?_, ?_, ?_⟩
        · rw [hmap2]
          simp [List.map_append, hfst, List.range'_1_concat, Nat.add_comm]
        · rw [hmap2]
          simp [hlen]
        · intro e he
          rw [hkey2]
          rw [hmap2] at he
          rcases List.mem_append.mp he with hin | hin
          · exact Nat.lt_trans (hkeys e hin) (Nat.lt_succ_self _)
          · simp at hin
            subst hin
            exact Nat.lt_succ_self _
    | del id =>
      obtain ⟨hm, hk⟩ := removeJob_mapping_nextKey r.st.jobs id
      have hm2 : (deleteJob r.st id).2.1.jobs.mapping = r.st.jobs.mapping := hm
      have hk2 : (deleteJob r.st id).2.1.jobs.inner.nextKey = r.st.jobs.inner.nextKey := hk
      cases hres : (deleteJob r.st id).1 with
      | ok u =>
        simp only [stepOp, hhalt, hres, Bool.false_eq_true, if_false]
        exact ⟨hiss, fun _ => ⟨by rw [hm2]; exact hfst,
          by rw [hm2]; exact hlen, by rw [hm2, hk2]; exact hkeys⟩⟩
      | err e =>
        simp only [stepOp, hhalt, hres, Bool.false_eq_true, if_false]
        exact ⟨hiss, fun _ => ⟨by rw [hm2]; exact hfst,
          by rw [hm2]; exact hlen, by rw [hm2, hk2]; exact hkeys⟩⟩
      | panicked =>
        simp only [stepOp, hhalt, hres, Bool.false_eq_true, if_false]
        exact ⟨hiss, fun hcontra => Bool.noConfusion hcontra⟩
    | clr =>
      simp only [stepOp, hhalt, Bool.false_eq_true, if_false]
      exact ⟨hiss, fun _ => ⟨hfst, hlen, hkeys⟩⟩

/-- Helper: the run invariant holds after any operation sequence. -/
theorem goodRun_foldl (ops : List Op) : ∀ r, goodRun r → goodRun (ops.foldl stepOp r) := by
  induction ops with
  | nil => intro r h; exact h
  | cons op rest ih => intro r h; exact ih _ (goodRun_step r op h)

/-- Claim C8 (confirmed): over any sequence of insertions, deletions
and clears in one queue lifetime, the issued ids are exactly
1, 2, 3, ... in issue order: they start at 1, each is strictly greater
than all previously issued ids, none is ever reused, and insertions
after deletions or clears still advance the counter. -/
theorem C8_issued_ids_monotonic (ops : List Op) :
    issuedIds ops = List.range' 1 (issuedIds ops).length ∧
    List.Pairwise (· < ·) (issuedIds ops) := by
  have h := goodRun_foldl ops RunSt.init
    ⟨rfl, fun _ => ⟨rfl, rfl, by
      intro e he
      simp [RunSt.init, DbState.empty, Jobs.empty] at he⟩⟩
  have h1 : issuedIds ops = List.range' 1 (issuedIds ops).length := h.1
  refine ⟨h1, ?_⟩
  rw [h1]
  exact List.pairwise_lt_range' 1 (issuedIds ops).length
